import Mathlib

/-!
Shallow embedding of the clip-generation pipeline in `backend/main.py`.

Python floats are modelled as exact rationals (`ℚ`), Python `int` as `ℤ`,
and fallible Python code (code that can raise) as `Except PyExc`.
Filesystem effects and external collaborators (yt-dlp, ffprobe, whisper,
ffmpeg) are modelled by explicit oracle parameters and by recording the
sequence of collaborator invocations plus the set of clip files written
to the clips output directory.
-/

deriving instance DecidableEq for Except

namespace ClipPipeline

/-- Python exceptions that the pipeline can raise: `ZeroDivisionError` from
scoring or from the uniform fallback, `subprocess.CalledProcessError` from a
failed ffmpeg/yt-dlp invocation (`check=True`), and the explicit
`HTTPException` raised when ffmpeg is not installed. -/
inductive PyExc where
  | zeroDivisionError
  | calledProcessError
  | ffmpegNotInstalled
deriving DecidableEq, Repr

/-- A Whisper transcript segment: dict with keys `text`, `start`, `end`
(`main.py` lines 61-74 produce them; invariant `start < end` per data model). -/
structure Segment where
  text : String
  start : ℚ
  «end» : ℚ
deriving DecidableEq, Repr

/-- A scored candidate dict `{start, end, score}` built at
`main.py` lines 89-93. -/
structure ScoredCandidate where
  start : ℚ
  «end» : ℚ
  score : ℚ
deriving DecidableEq, Repr

/-- A selected moment dict `{id, start, end}` (`main.py` lines 106, 113). -/
structure Moment where
  id : ℕ
  start : ℚ
  «end» : ℚ
deriving DecidableEq, Repr

/-- One SRT cue as written by `create_subtitle_file`: the 1-based cue index,
the re-based timestamps, and the stripped text (`main.py` lines 123-134).
The on-disk rendering of the timestamps is `format_timecode`. -/
structure Cue where
  index : ℕ
  start : ℚ
  «end» : ℚ
  text : String
deriving DecidableEq, Repr

/-- One entry of the `clips` response list (`main.py` lines 271-276). -/
structure Clip where
  id : ℕ
  start : ℚ
  «end» : ℚ
  downloadUrl : String
deriving DecidableEq, Repr

/-- Counts the maximal whitespace-free runs in a character list; `inWord`
says whether the previous character was part of a word. -/
def wordsAux : List Char → Bool → ℕ
  | [], _ => 0
  | c :: rest, inWord =>
    if c.isWhitespace then wordsAux rest false
    else (if inWord then 0 else 1) + wordsAux rest true

/-- Python `len(s.split())` (`main.py` line 87): `str.split()` with no
argument splits on runs of whitespace and drops empty strings, so its length
is the number of maximal whitespace-free runs. -/
def words_count (s : String) : ℕ :=
  wordsAux s.data false

/-- Python list slicing `l[:k]` for an arbitrary integer `k`: a nonnegative
`k` keeps the first `k` elements, a negative `k` drops the last `-k`
(clamped at the empty list). -/
def pySlice {α : Type} (k : ℤ) (l : List α) : List α :=
  if 0 ≤ k then l.take k.toNat else l.take ((l.length : ℤ) + k).toNat

/-- The scoring loop of `find_interesting_moments` (`main.py` lines 85-93):
each segment gets `score = words_count / (end - start)`.  There is no
filtering: a segment with `end == start` makes Python raise
`ZeroDivisionError` at the division. -/
def scored_segments : List Segment → Except PyExc (List ScoredCandidate)
  | [] => Except.ok []
  | seg :: rest =>
    if seg.«end» - seg.start = 0 then
      Except.error PyExc.zeroDivisionError
    else
      match scored_segments rest with
      | Except.error e => Except.error e
      | Except.ok cs =>
        Except.ok ({ start := seg.start, «end» := seg.«end»,
                     score := (words_count seg.text : ℚ) / (seg.«end» - seg.start) } :: cs)

/-- The comparator realising Python `sort(key=score, reverse=True)`:
a stable sort that puts higher scores first (`main.py` line 96). -/
def scoreDescLE (a b : ScoredCandidate) : Bool :=
  decide (b.score ≤ a.score)

/-- The body of the transcript-driven loop (`main.py` lines 98-106): from the
enumerate index and the candidate, build the moment with the one-second
lead-in, the `min` with the total duration, and the (dead, see below)
conditional clamp. -/
def momentOfCandidate (duration : ℚ) (max_duration : ℤ) (p : ℕ × ScoredCandidate) : Moment :=
  let start := max 0 (p.2.start - 1)
  let e1 := min duration (start + (max_duration : ℚ))
  let e2 := if e1 - start > (max_duration : ℚ) then start + (max_duration : ℚ) else e1
  { id := p.1 + 1, start := start, «end» := e2 }

/-- The same loop body with the conditional clamp of `main.py` lines 103-104
removed, used to state the refinement claim. -/
def momentOfCandidateNoClamp (duration : ℚ) (max_duration : ℤ) (p : ℕ × ScoredCandidate) : Moment :=
  let start := max 0 (p.2.start - 1)
  let e1 := min duration (start + (max_duration : ℚ))
  { id := p.1 + 1, start := start, «end» := e1 }

/-- Embedding of `find_interesting_moments(duration, clips_count, max_duration, segments)`
(`main.py` lines 76-115).  With a nonempty transcript it scores the
segments, stably sorts them by descending score, slices the top
`clips_count` and maps the loop body over the enumerated slice; otherwise it
uses the uniform fallback, whose leading division `duration / clips_count`
raises `ZeroDivisionError` when `clips_count == 0`. -/
def find_interesting_moments (duration : ℚ) (clips_count max_duration : ℤ)
    (segments : List Segment) : Except PyExc (List Moment) :=
  match segments with
  | [] =>
    if clips_count = 0 then Except.error PyExc.zeroDivisionError
    else
      let segment_duration := duration / (clips_count : ℚ)
      Except.ok ((List.range clips_count.toNat).map fun i =>
        { id := i + 1, start := (i : ℚ) * segment_duration,
          «end» := min ((i : ℚ) * segment_duration + (max_duration : ℚ)) duration })
  | _ :: _ =>
    match scored_segments segments with
    | Except.error e => Except.error e
    | Except.ok scored =>
      Except.ok (((pySlice clips_count (scored.mergeSort scoreDescLE)).enum).map
        (momentOfCandidate duration max_duration))

/-- Variant of `find_interesting_moments` with the conditional clamp removed,
used only to state the refinement claim about that clamp. -/
def find_interesting_moments_noclamp (duration : ℚ) (clips_count max_duration : ℤ)
    (segments : List Segment) : Except PyExc (List Moment) :=
  match segments with
  | [] =>
    if clips_count = 0 then Except.error PyExc.zeroDivisionError
    else
      let segment_duration := duration / (clips_count : ℚ)
      Except.ok ((List.range clips_count.toNat).map fun i =>
        { id := i + 1, start := (i : ℚ) * segment_duration,
          «end» := min ((i : ℚ) * segment_duration + (max_duration : ℚ)) duration })
  | _ :: _ =>
    match scored_segments segments with
    | Except.error e => Except.error e
    | Except.ok scored =>
      Except.ok (((pySlice clips_count (scored.mergeSort scoreDescLE)).enum).map
        (momentOfCandidateNoClamp duration max_duration))

/-- The window filter of `create_subtitle_file` (`main.py` line 120):
keep exactly the segments contained in `[start_time, end_time]`. -/
def relevant_segments (segments : List Segment) (start_time end_time : ℚ) : List Segment :=
  segments.filter fun s => decide (start_time ≤ s.start) && decide (s.«end» ≤ end_time)

/-- The cue list written by `create_subtitle_file` (`main.py` lines 118-134):
1-based enumeration of the window-filtered segments, timestamps shifted by
`start_time`, text stripped. -/
def create_subtitle_file (segments : List Segment) (start_time end_time : ℚ) : List Cue :=
  ((relevant_segments segments start_time end_time).enum).map fun p =>
    { index := p.1 + 1, start := p.2.start - start_time,
      «end» := p.2.«end» - start_time, text := p.2.text.trim }

/-- Floor of a rational, written so that the kernel can evaluate it
(`⌊q⌋ = q.num / q.den`, see `ratFloor_eq`). -/
def ratFloor (q : ℚ) : ℤ := q.num / (q.den : ℤ)

/-- Ceiling of a rational, written so that the kernel can evaluate it. -/
def ratCeil (q : ℚ) : ℤ := -ratFloor (-q)

/-- Python floor division `a // b` on floats, as an exact rational. -/
def pyFloorDiv (a b : ℚ) : ℚ := (ratFloor (a / b) : ℚ)

/-- Python modulo `a % b` on floats, as an exact rational:
`a - b * (a // b)`. -/
def pyMod (a b : ℚ) : ℚ := a - b * (ratFloor (a / b) : ℚ)

/-- Python `int(x)`: truncation toward zero. -/
def pyInt (q : ℚ) : ℤ :=
  if 0 ≤ q then ratFloor q else ratCeil q

/-- Zero padding of a natural number to the given width, as done by the
Python format specifiers `{:02d}` and `{:03d}` on nonnegative values. -/
def padNat (width : ℕ) (n : ℕ) : String :=
  let s := toString n
  String.mk (List.replicate (width - s.length) '0') ++ s

/-- Python `{:0wd}` formatting of an integer: zero padding, with the sign
counting toward the width for negative values. -/
def padNum (width : ℕ) (n : ℤ) : String :=
  if n < 0 then "-" ++ padNat (width - 1) (-n).toNat else padNat width n.toNat

/-- The SRT timecode expression of `main.py` lines 129-130: hours are
`int(t//3600)` padded to 2 digits, minutes `int((t%3600)//60)`, seconds
`int(t%60)`, milliseconds `int((t%1)*1000)` padded to 3 digits. -/
def format_timecode (t : ℚ) : String :=
  padNum 2 (pyInt (pyFloorDiv t 3600)) ++ ":" ++
  padNum 2 (pyInt (pyFloorDiv (pyMod t 3600) 60)) ++ ":" ++
  padNum 2 (pyInt (pyMod t 60)) ++ "," ++
  padNum 3 (pyInt (pyMod t 1 * 1000))

/-- Modelled from the spec's words, for comparison with `format_timecode`:
render `HH:MM:SS,mmm` with zero-padded hours, minutes and seconds taken from
the integral part and 3-digit milliseconds truncated (floored) from the
fractional part. -/
def specTimecode (t : ℚ) : String :=
  padNat 2 (⌊t⌋₊ / 3600) ++ ":" ++ padNat 2 (⌊t⌋₊ % 3600 / 60) ++ ":" ++
  padNat 2 (⌊t⌋₊ % 60) ++ "," ++ padNat 3 ⌊(t - (⌊t⌋₊ : ℚ)) * 1000⌋₊

/-- Embedding of `cut_video_with_subtitles` (`main.py` lines 137-185), restricted to the
state the lifecycle claim is about.  The input `encodeOk` is the outcome of
the ffmpeg subprocess; the returned boolean says whether the caption `.srt`
temp file exists when the function returns or raises.  The file is created
before the encode when `segments` is nonempty (lines 150-153); a failing
encode raises `CalledProcessError` out of the function (line 181,
`check=True`, no `try`/`finally`), skipping the removal of lines 184-185. -/
def cut_video_with_subtitles (segments : List Segment) (encodeOk : Bool) :
    Except PyExc Unit × Bool :=
  let subtitleExists := !segments.isEmpty
  if !encodeOk then
    (Except.error PyExc.calledProcessError, subtitleExists)
  else
    (Except.ok (), if subtitleExists then false else subtitleExists)

/-- Collaborator invocations performed by a job, in order. -/
inductive Ev where
  | fetch
  | probe
  | extract
  | transcribe
  | render (id : ℕ)
deriving DecidableEq, Repr

/-- The Python `downloadUrl` string `/clips/{job_id}_clip_{id}.mp4`. -/
def downloadUrl (job_id : String) (id : ℕ) : String :=
  "/clips/" ++ job_id ++ "_clip_" ++ toString id ++ ".mp4"

/-- The render loop of `generate_clips_from_url` (`main.py` lines 257-276):
moments are rendered sequentially; a successful render writes the clip file
`{job_id}_clip_{id}.mp4` into the clips output directory (NOT the job temp
directory) and appends the clip metadata; a failed ffmpeg run raises
`CalledProcessError`, aborting the loop.  Returns the render events, the
clip files written to the clips directory (by moment id), and the `clips`
metadata list or the exception. -/
def renderLoop (job_id : String) (segments : List Segment) (renderOk : ℕ → Bool) :
    List Moment → List Ev × List ℕ × Except PyExc (List Clip)
  | [] => ([], [], Except.ok [])
  | mo :: rest =>
    match (cut_video_with_subtitles segments (renderOk mo.id)).1 with
    | Except.error e => ([Ev.render mo.id], [], Except.error e)
    | Except.ok _ =>
      let r := renderLoop job_id segments renderOk rest
      (Ev.render mo.id :: r.1, mo.id :: r.2.1,
        r.2.2.map fun cs =>
          { id := mo.id, start := mo.start, «end» := mo.«end»,
            downloadUrl := downloadUrl job_id mo.id } :: cs)

/-- Embedding of `generate_clips_from_url` (`main.py` lines 220-288).  Collaborators are
oracles: `ffmpegOk` (the `check_ffmpeg` gate), `fetchOk` (yt-dlp),
`duration` (ffprobe), `whisperOk` and `transcript` (whisper), `renderOk`
(ffmpeg per moment id).  Returns the ordered collaborator events, the clip
files left in the clips output directory, and the response: the `clips`
list, or the exception that the `except` handler re-surfaces as an HTTP 500
after removing only the job temp directory (clip files are outside it). -/
def generate_clips_from_url (job_id : String) (clipsCount maxDuration : ℤ)
    (ffmpegOk fetchOk : Bool) (duration : ℚ) (whisperOk : Bool)
    (transcript : List Segment) (renderOk : ℕ → Bool) :
    List Ev × List ℕ × Except PyExc (List Clip) :=
  if !ffmpegOk then ([], [], Except.error PyExc.ffmpegNotInstalled)
  else if !fetchOk then ([Ev.fetch], [], Except.error PyExc.calledProcessError)
  else
    let preEvs := [Ev.fetch, Ev.probe] ++
      (if whisperOk then [Ev.extract, Ev.transcribe] else [])
    let segments := if whisperOk then transcript else []
    match find_interesting_moments duration clipsCount maxDuration segments with
    | Except.error e => (preEvs, [], Except.error e)
    | Except.ok moments =>
      let r := renderLoop job_id segments renderOk moments
      (preEvs ++ r.1, r.2.1, r.2.2)

/-! Helper lemmas shared by the claim theorems. -/

theorem ratFloor_eq (q : ℚ) : ratFloor q = ⌊q⌋ :=
  Rat.floor_def.symm

theorem ratCeil_eq (q : ℚ) : ratCeil q = ⌈q⌉ := by
  rw [ratCeil, ratFloor_eq, Int.floor_neg, neg_neg]

theorem scored_segments_ok {segs : List Segment}
    (hw : ∀ s ∈ segs, s.«end» - s.start ≠ 0) :
    ∃ cs, scored_segments segs = Except.ok cs ∧ cs.length = segs.length := by
  induction segs with
  | nil => exact ⟨[], rfl, rfl⟩
  | cons seg rest ih =>
    obtain ⟨cs, hcs, hlen⟩ := ih fun s hs => hw s (List.mem_cons_of_mem _ hs)
    refine ⟨{ start := seg.start, «end» := seg.«end»,
              score := (words_count seg.text : ℚ) / (seg.«end» - seg.start) } :: cs,
      ?_, by simp [hlen]⟩
    simp only [scored_segments, if_neg (hw seg (List.mem_cons_self _ _)), hcs]

theorem scored_segments_raises {segs : List Segment}
    (h : ∃ s ∈ segs, s.«end» - s.start = 0) :
    scored_segments segs = Except.error PyExc.zeroDivisionError := by
  induction segs with
  | nil => simp at h
  | cons seg rest ih =>
    by_cases hseg : seg.«end» - seg.start = 0
    · simp [scored_segments, hseg]
    · obtain ⟨s, hs, hzero⟩ := h
      rcases List.mem_cons.1 hs with rfl | hmem
      · exact absurd hzero hseg
      · simp [scored_segments, hseg, ih ⟨s, hmem, hzero⟩]

theorem find_interesting_moments_zero_count {d : ℚ} {m : ℤ} {segs : List Segment}
    (hne : segs ≠ []) (hw : ∀ s ∈ segs, s.start < s.«end») :
    find_interesting_moments d 0 m segs = Except.ok [] := by
  obtain ⟨cs, hcs, -⟩ :=
    scored_segments_ok fun s hs => (sub_pos.2 (hw s hs)).ne'
  obtain ⟨s, rest, rfl⟩ := List.exists_cons_of_ne_nil hne
  simp [find_interesting_moments, hcs, pySlice]

theorem renderLoop_fail (job : String) (segs : List Segment) (r : ℕ → Bool)
    (pre : List Moment) (bad : Moment) (post : List Moment)
    (hpre : ∀ mo ∈ pre, r mo.id = true) (hbad : r bad.id = false) :
    renderLoop job segs r (pre ++ bad :: post) =
      (pre.map (fun mo => Ev.render mo.id) ++ [Ev.render bad.id],
       pre.map (fun mo => mo.id), Except.error PyExc.calledProcessError) := by
  induction pre with
  | nil => simp [renderLoop, cut_video_with_subtitles, hbad]
  | cons mo pre ih =>
    have hmo : r mo.id = true := hpre mo (List.mem_cons_self _ _)
    have hrest := ih fun x hx => hpre x (List.mem_cons_of_mem _ hx)
    simp [renderLoop, cut_video_with_subtitles, hmo, hrest, Except.map]

/-! Claim theorems. -/

/-- C3: for all duration > 0, clipsCount ≥ 1, maxDuration ≥ 5, with no
transcript segments, uniform-fallback selection returns at most clipsCount
moments, and every returned moment satisfies 0 ≤ start < end ≤ duration and
end - start ≤ maxDuration. -/
theorem uniform_fallback_bounds (d : ℚ) (n m : ℤ)
    (hd : 0 < d) (hn : 1 ≤ n) (hm : 5 ≤ m) :
    ∃ ms, find_interesting_moments d n m [] = Except.ok ms ∧
      (ms.length : ℤ) ≤ n ∧
      ∀ mo ∈ ms, 0 ≤ mo.start ∧ mo.start < mo.«end» ∧ mo.«end» ≤ d ∧
        mo.«end» - mo.start ≤ (m : ℚ) := by
  have hn0 : ¬ (n = 0) := by omega
  have hnQ : (0 : ℚ) < (n : ℚ) := by exact_mod_cast lt_of_lt_of_le Int.zero_lt_one hn
  have hmQ : (0 : ℚ) < (m : ℚ) := by
    have : (0 : ℤ) < m := by omega
    exact_mod_cast this
  have hms : find_interesting_moments d n m [] =
      Except.ok ((List.range n.toNat).map fun i =>
        { id := i + 1, start := (i : ℚ) * (d / (n : ℚ)),
          «end» := min ((i : ℚ) * (d / (n : ℚ)) + (m : ℚ)) d }) := by
    simp only [find_interesting_moments]
    rw [if_neg hn0]
  refine ⟨_, hms, ?_, ?_⟩
  · simp only [List.length_map, List.length_range]
    omega
  · intro mo hmo
    simp only [List.mem_map, List.mem_range] at hmo
    obtain ⟨i, hi, rfl⟩ := hmo
    have hsd : (0 : ℚ) < d / (n : ℚ) := div_pos hd hnQ
    have hiQ : (i : ℚ) < (n : ℚ) := by
      have : (i : ℤ) < n := by omega
      exact_mod_cast this
    have hstart : (0 : ℚ) ≤ (i : ℚ) * (d / (n : ℚ)) :=
      mul_nonneg (Nat.cast_nonneg i) hsd.le
    have hlt : (i : ℚ) * (d / (n : ℚ)) < d := by
      have h1 : (i : ℚ) * (d / (n : ℚ)) < (n : ℚ) * (d / (n : ℚ)) :=
        mul_lt_mul_of_pos_right hiQ hsd
      rwa [mul_div_cancel₀ d hnQ.ne'] at h1
    refine ⟨hstart, ?_, ?_, ?_⟩
    · exact lt_min (by linarith) hlt
    · exact min_le_right _ _
    · have := min_le_left ((i : ℚ) * (d / (n : ℚ)) + (m : ℚ)) d
      linarith

/-- C3 witness: instantiation at duration 100, clipsCount 3, maxDuration 30. -/
theorem uniform_fallback_bounds_witness :
    ∃ ms, find_interesting_moments 100 3 30 [] = Except.ok ms ∧
      (ms.length : ℤ) ≤ 3 ∧
      ∀ mo ∈ ms, 0 ≤ mo.start ∧ mo.start < mo.«end» ∧ mo.«end» ≤ 100 ∧
        mo.«end» - mo.start ≤ (30 : ℚ) :=
  uniform_fallback_bounds 100 3 30 (by norm_num) (by norm_num) (by norm_num)

/-- C5: the Subtitle Re-baser keeps exactly the segments with
segment.start ≥ window.start and segment.end ≤ window.end (so a segment
exactly matching the window bounds is kept), and each retained cue carries
local_start = segment.start - window.start and
local_end = segment.end - window.start, with 0 ≤ local_start and
local_end ≤ window.end - window.start. -/
theorem subtitle_rebaser_window (segs : List Segment) (a b : ℚ) :
    (∀ s : Segment, s ∈ relevant_segments segs a b ↔
      s ∈ segs ∧ a ≤ s.start ∧ s.«end» ≤ b) ∧
    (∀ c ∈ create_subtitle_file segs a b,
      0 ≤ c.start ∧ c.«end» ≤ b - a ∧
      ∃ s ∈ segs, a ≤ s.start ∧ s.«end» ≤ b ∧
        c.start = s.start - a ∧ c.«end» = s.«end» - a) := by
  constructor
  · intro s
    simp [relevant_segments, List.mem_filter]
  · intro c hc
    simp only [create_subtitle_file, List.mem_map] at hc
    obtain ⟨⟨i, s⟩, hmem, rfl⟩ := hc
    have hs : s ∈ relevant_segments segs a b := by
      have h2 := List.mem_map_of_mem Prod.snd hmem
      simpa [List.enum_eq_enumFrom] using h2
    have hprop : s ∈ segs ∧ a ≤ s.start ∧ s.«end» ≤ b := by
      simpa [relevant_segments, List.mem_filter] using hs
    refine ⟨by simpa using sub_nonneg.2 hprop.2.1,
      by simpa using sub_le_sub_right hprop.2.2 a,
      s, hprop.1, hprop.2.1, hprop.2.2, rfl, rfl⟩

/-- C9: in the transcript-driven strategy, after end = min(duration, start +
maxDuration) the span end - start never exceeds maxDuration under exact
arithmetic, so the conditional clamp never changes end, and the selector is
extensionally equal to the variant with the clamp removed. -/
theorem transcript_clamp_dead_code (d : ℚ) (n m : ℤ) (segs : List Segment) :
    (∀ p : ℕ × ScoredCandidate,
      (momentOfCandidateNoClamp d m p).«end» - (momentOfCandidateNoClamp d m p).start ≤ (m : ℚ) ∧
      momentOfCandidate d m p = momentOfCandidateNoClamp d m p) ∧
    find_interesting_moments d n m segs = find_interesting_moments_noclamp d n m segs := by
  have hspan : ∀ p : ℕ × ScoredCandidate,
      min d (max 0 (p.2.start - 1) + (m : ℚ)) - max 0 (p.2.start - 1) ≤ (m : ℚ) := by
    intro p
    have := min_le_right d (max 0 (p.2.start - 1) + (m : ℚ))
    linarith
  have key : ∀ p : ℕ × ScoredCandidate,
      momentOfCandidate d m p = momentOfCandidateNoClamp d m p := by
    intro p
    simp [momentOfCandidate, momentOfCandidateNoClamp, not_lt.2 (hspan p)]
  have kf : momentOfCandidate d m = momentOfCandidateNoClamp d m := funext key
  refine ⟨fun p => ⟨by simpa [momentOfCandidateNoClamp] using hspan p, key p⟩, ?_⟩
  cases segs with
  | nil => rfl
  | cons s rest =>
    cases h : scored_segments (s :: rest) with
    | error e => simp [find_interesting_moments, find_interesting_moments_noclamp, h]
    | ok cs => simp [find_interesting_moments, find_interesting_moments_noclamp, h, kf]

/-- C10: when at least one transcript segment is present (segments satisfying
the data-model invariant start < end) and clipsCount = 0, the Moment Selector
returns the empty moment list without raising any error. -/
theorem selector_zero_count_with_transcript (d : ℚ) (m : ℤ) (segs : List Segment)
    (hne : segs ≠ []) (hw : ∀ s ∈ segs, s.start < s.«end») :
    find_interesting_moments d 0 m segs = Except.ok [] :=
  find_interesting_moments_zero_count hne hw

/-- C10 witness: a single well-formed transcript segment with clipsCount 0. -/
theorem selector_zero_count_with_transcript_witness :
    find_interesting_moments 100 0 30 [⟨"hello world", 0, 2⟩] = Except.ok [] :=
  selector_zero_count_with_transcript 100 30 [⟨"hello world", 0, 2⟩] (by simp)
    (by intro s hs; rw [List.mem_singleton] at hs; subst hs; norm_num)

/-- C1 counterexample: on the spec's own example input, the segment with
end == start is not excluded; it reaches the division and the whole scoring
pass raises ZeroDivisionError, so the second segment is never scored. -/
theorem scorer_zero_duration_counterexample :
    find_interesting_moments 100 3 30 [⟨"a b c", 0, 0⟩, ⟨"hello world", 0, 2⟩] =
      Except.error PyExc.zeroDivisionError := by
  simp [find_interesting_moments, scored_segments]

/-- C1 amended: the Transcript Scorer does not exclude zero-duration
segments; whenever some segment has end == start the division is reached and
the selection fails with ZeroDivisionError.  When no zero-duration segment is
present each segment is scored with word_count / (end - start); in
particular the segment {text:"hello world", start:0, end:2} gets score 1. -/
theorem scorer_zero_duration_raises (d : ℚ) (n m : ℤ) (segs : List Segment)
    (h : ∃ s ∈ segs, s.«end» - s.start = 0) :
    find_interesting_moments d n m segs = Except.error PyExc.zeroDivisionError ∧
    scored_segments [⟨"hello world", 0, 2⟩] =
      Except.ok [{ start := 0, «end» := 2, score := 1 }] := by
  constructor
  · obtain ⟨s, hs, hz⟩ := h
    have hne : segs ≠ [] := by rintro rfl; simp at hs
    obtain ⟨a, l, rfl⟩ := List.exists_cons_of_ne_nil hne
    simp [find_interesting_moments, scored_segments_raises ⟨s, hs, hz⟩]
  · simp [scored_segments, words_count, wordsAux]

/-- C1 witness: the amended claim at the spec's example input. -/
theorem scorer_zero_duration_raises_witness :
    find_interesting_moments 100 3 30 [⟨"a b c", 0, 0⟩, ⟨"hello world", 0, 2⟩] =
      Except.error PyExc.zeroDivisionError ∧
    scored_segments [⟨"hello world", 0, 2⟩] =
      Except.ok [{ start := 0, «end» := 2, score := 1 }] :=
  scorer_zero_duration_raises 100 3 30 [⟨"a b c", 0, 0⟩, ⟨"hello world", 0, 2⟩]
    ⟨⟨"a b c", 0, 0⟩, by simp, by norm_num⟩

/-- C2 counterexample: with clipsCount = 0 the job does not fail before media
work; the fetch and the media probe are both invoked, and the failure that
eventually surfaces is a ZeroDivisionError, not a parameter-validation
error. -/
theorem parameter_validation_counterexample :
    generate_clips_from_url "job" 0 30 true true 100 false [] (fun _ => true) =
      ([Ev.fetch, Ev.probe], [], Except.error PyExc.zeroDivisionError) ∧
    Ev.fetch ∈ (generate_clips_from_url "job" 0 30 true true 100 false [] (fun _ => true)).1 := by
  constructor
  · simp [generate_clips_from_url, find_interesting_moments]
  · simp [generate_clips_from_url, find_interesting_moments]

/-- C2 amended: the pipeline performs no parameter validation.  With
clipsCount = 0 it always invokes the fetcher and the media probe first; when
no transcript is available it then fails with the ZeroDivisionError from the
uniform fallback (surfaced as an HTTP 500), and when a transcript is
available it invokes transcription as well and returns an empty clip list.
No InvalidParameterError exists anywhere in the pipeline. -/
theorem no_parameter_validation (m : ℤ) (d : ℚ) (job : String) (r : ℕ → Bool)
    (segs : List Segment) (hne : segs ≠ []) (hw : ∀ s ∈ segs, s.start < s.«end») :
    generate_clips_from_url job 0 m true true d false [] r =
      ([Ev.fetch, Ev.probe], [], Except.error PyExc.zeroDivisionError) ∧
    generate_clips_from_url job 0 m true true d true segs r =
      ([Ev.fetch, Ev.probe, Ev.extract, Ev.transcribe], [], Except.ok []) := by
  constructor
  · simp [generate_clips_from_url, find_interesting_moments]
  · simp [generate_clips_from_url,
      find_interesting_moments_zero_count hne hw, renderLoop]

/-- C2 witness: the amended claim at a concrete job. -/
theorem no_parameter_validation_witness :
    generate_clips_from_url "job" 0 30 true true 100 false [] (fun _ => true) =
      ([Ev.fetch, Ev.probe], [], Except.error PyExc.zeroDivisionError) ∧
    generate_clips_from_url "job" 0 30 true true 100 true [⟨"hello world", 0, 2⟩]
        (fun _ => true) =
      ([Ev.fetch, Ev.probe, Ev.extract, Ev.transcribe], [], Except.ok []) :=
  no_parameter_validation 30 100 "job" (fun _ => true) [⟨"hello world", 0, 2⟩]
    (by simp) (by intro s hs; rw [List.mem_singleton] at hs; subst hs; norm_num)

/-- C4 counterexample: on the encode-failure path the caption temp file
still exists when the renderer raises: the exception from the encode
propagates before the removal step runs. -/
theorem caption_cleanup_counterexample :
    cut_video_with_subtitles [⟨"hello world", 0, 2⟩] false =
      (Except.error PyExc.calledProcessError, true) := rfl

/-- C4 amended: the Clip Renderer creates the caption temp file before the
encode and deletes it only on the success path; when the encode fails the
CalledProcessError propagates before the removal, and the caption temp file
still exists when the renderer raises. -/
theorem caption_cleanup_success_only (segs : List Segment) (h : segs ≠ []) :
    cut_video_with_subtitles segs true = (Except.ok (), false) ∧
    cut_video_with_subtitles segs false =
      (Except.error PyExc.calledProcessError, true) := by
  have hE : segs.isEmpty = false := by simpa [List.isEmpty_iff] using h
  constructor <;> simp [cut_video_with_subtitles, hE]

/-- C4 witness: the amended claim at a one-segment caption track. -/
theorem caption_cleanup_success_only_witness :
    cut_video_with_subtitles [⟨"hello world", 0, 2⟩] true = (Except.ok (), false) ∧
    cut_video_with_subtitles [⟨"hello world", 0, 2⟩] false =
      (Except.error PyExc.calledProcessError, true) :=
  caption_cleanup_success_only [⟨"hello world", 0, 2⟩] (by simp)

/-- C8 counterexample: a job with two moments whose second render fails
returns an error, but the clip file rendered for moment 1 survives in the
clips output directory (only the job temp directory is cleaned up), so the
result is not free of surviving clip artifacts. -/
theorem partial_clips_survive_counterexample :
    generate_clips_from_url "job" 2 30 true true 100 false []
        (fun i => decide (i ≠ 2)) =
      ([Ev.fetch, Ev.probe, Ev.render 1, Ev.render 2], [1],
        Except.error PyExc.calledProcessError) := by
  simp [generate_clips_from_url, find_interesting_moments, List.range_succ,
    renderLoop, cut_video_with_subtitles, Except.map]

/-- C8 amended: when rendering of some moment k fails, the job returns an
error, the response contains no clips, and the renders after moment k are
aborted; however the clip files already rendered for moments 1..k-1 are not
deleted — the error handler removes only the job temp directory, and those
artifacts survive in the clips output directory. -/
theorem render_failure_leaves_earlier_clips (job : String) (n m : ℤ) (d : ℚ)
    (r : ℕ → Bool) (ms pre post : List Moment) (bad : Moment)
    (hf : find_interesting_moments d n m [] = Except.ok ms)
    (hms : ms = pre ++ bad :: post)
    (hpre : ∀ mo ∈ pre, r mo.id = true) (hbad : r bad.id = false) :
    generate_clips_from_url job n m true true d false [] r =
      ([Ev.fetch, Ev.probe] ++ pre.map (fun mo => Ev.render mo.id) ++ [Ev.render bad.id],
       pre.map (fun mo => mo.id), Except.error PyExc.calledProcessError) := by
  subst hms
  simp [generate_clips_from_url, hf, renderLoop_fail job [] r pre bad post hpre hbad]

/-- C8 witness: the amended claim at a two-moment job whose second render
fails. -/
theorem render_failure_leaves_earlier_clips_witness :
    generate_clips_from_url "job" 2 30 true true 100 false []
        (fun i => decide (i ≠ 2)) =
      ([Ev.fetch, Ev.probe] ++ ([⟨1, 0, 30⟩] : List Moment).map (fun mo => Ev.render mo.id) ++
        [Ev.render (⟨2, 50, 80⟩ : Moment).id],
       ([⟨1, 0, 30⟩] : List Moment).map (fun mo => mo.id),
       Except.error PyExc.calledProcessError) :=
  render_failure_leaves_earlier_clips "job" 2 30 100 (fun i => decide (i ≠ 2))
    [⟨1, 0, 30⟩, ⟨2, 50, 80⟩] [⟨1, 0, 30⟩] [] ⟨2, 50, 80⟩
    (by simp [find_interesting_moments, List.range_succ]; norm_num) rfl
    (by simp) (by simp)

theorem pyFloorDiv_int (t : ℚ) (ht : 0 ≤ t) (k : ℕ) (hk : 0 < k) :
    pyInt (pyFloorDiv t (k : ℚ)) = ((⌊t⌋₊ / k : ℕ) : ℤ) := by
  have hkQ : (0 : ℚ) < (k : ℚ) := by exact_mod_cast hk
  have h1 : (0 : ℚ) ≤ t / (k : ℚ) := div_nonneg ht hkQ.le
  have h2 : (0 : ℤ) ≤ ⌊t / (k : ℚ)⌋ := Int.floor_nonneg.2 h1
  have h3 : (0 : ℚ) ≤ ((⌊t / (k : ℚ)⌋ : ℤ) : ℚ) := by exact_mod_cast h2
  rw [pyFloorDiv, ratFloor_eq, pyInt, if_pos h3, ratFloor_eq, Int.floor_intCast,
    ← Int.natCast_floor_eq_floor h1, Nat.floor_div_nat]

theorem pyMod_nonneg (t : ℚ) {b : ℚ} (hb : 0 < b) : 0 ≤ pyMod t b := by
  rw [pyMod, ratFloor_eq]
  have h := Int.floor_le (t / b)
  have h2 : b * ((⌊t / b⌋ : ℤ) : ℚ) ≤ b * (t / b) := mul_le_mul_of_nonneg_left h hb.le
  rw [mul_comm b (t / b), div_mul_cancel₀ t hb.ne'] at h2
  linarith

theorem natFloor_pyMod (t : ℚ) (ht : 0 ≤ t) (k : ℕ) (hk : 0 < k) :
    ⌊pyMod t (k : ℚ)⌋₊ = ⌊t⌋₊ % k := by
  have hkQ : (0 : ℚ) < (k : ℚ) := by exact_mod_cast hk
  have h1 : (0 : ℚ) ≤ t / (k : ℚ) := div_nonneg ht hkQ.le
  have hfl : ⌊t / (k : ℚ)⌋ = ((⌊t⌋₊ / k : ℕ) : ℤ) := by
    rw [← Int.natCast_floor_eq_floor h1, Nat.floor_div_nat]
  have hpm : pyMod t (k : ℚ) = t - ((k * (⌊t⌋₊ / k) : ℕ) : ℚ) := by
    rw [pyMod, ratFloor_eq, hfl]
    norm_cast
  have hint : ⌊pyMod t (k : ℚ)⌋ = ((⌊t⌋₊ % k : ℕ) : ℤ) := by
    rw [hpm, Int.floor_sub_nat, ← Int.natCast_floor_eq_floor ht]
    have hdm := Nat.div_add_mod ⌊t⌋₊ k
    omega
  rw [← Int.floor_toNat, hint]
  omega

theorem pyInt_pyMod (t : ℚ) (ht : 0 ≤ t) (k : ℕ) (hk : 0 < k) :
    pyInt (pyMod t (k : ℚ)) = ((⌊t⌋₊ % k : ℕ) : ℤ) := by
  have hkQ : (0 : ℚ) < (k : ℚ) := by exact_mod_cast hk
  have h0 := pyMod_nonneg t hkQ
  rw [pyInt, if_pos h0, ratFloor_eq, ← Int.natCast_floor_eq_floor h0,
    natFloor_pyMod t ht k hk]

theorem pyInt_frac_ms (t : ℚ) (ht : 0 ≤ t) :
    pyInt (pyMod t 1 * 1000) = ((⌊(t - (⌊t⌋₊ : ℚ)) * 1000⌋₊ : ℕ) : ℤ) := by
  have hcast : ((⌊t⌋₊ : ℕ) : ℚ) = ((⌊t⌋ : ℤ) : ℚ) := natCast_floor_eq_intCast_floor ht
  have h1 : pyMod t 1 = t - ((⌊t⌋ : ℤ) : ℚ) := by
    rw [pyMod, ratFloor_eq, div_one, one_mul]
  have hfr : (0 : ℚ) ≤ t - ((⌊t⌋ : ℤ) : ℚ) := by
    have := Int.floor_le t
    linarith
  have h0 : (0 : ℚ) ≤ pyMod t 1 * 1000 := by
    rw [h1]
    positivity
  have hnn : (0 : ℚ) ≤ (t - ((⌊t⌋₊ : ℕ) : ℚ)) * 1000 := by
    rw [hcast]
    positivity
  rw [pyInt, if_pos h0, ratFloor_eq, h1, ← hcast, Int.natCast_floor_eq_floor hnn]

theorem padNum_natCast (w : ℕ) (v : ℕ) : padNum w ((v : ℕ) : ℤ) = padNat w v := by
  rw [padNum, if_neg (Int.natCast_nonneg v).not_lt]
  simp

theorem format_timecode_eq_spec (t : ℚ) (ht : 0 ≤ t) :
    format_timecode t = specTimecode t := by
  have h36 : (3600 : ℚ) = ((3600 : ℕ) : ℚ) := by norm_num
  have h60 : (60 : ℚ) = ((60 : ℕ) : ℚ) := by norm_num
  have hm0 : (0 : ℚ) ≤ pyMod t ((3600 : ℕ) : ℚ) := pyMod_nonneg t (by positivity)
  rw [format_timecode, specTimecode, h36, h60,
    pyFloorDiv_int t ht 3600 (by norm_num),
    pyFloorDiv_int (pyMod t ((3600 : ℕ) : ℚ)) hm0 60 (by norm_num),
    natFloor_pyMod t ht 3600 (by norm_num),
    pyInt_pyMod t ht 60 (by norm_num),
    pyInt_frac_ms t ht,
    padNum_natCast, padNum_natCast, padNum_natCast, padNum_natCast]

/-- C6: the caption timecode formatter renders a non-negative seconds value
as HH:MM:SS,mmm with zero-padded hours, minutes and seconds and 3-digit
milliseconds obtained by truncating (not rounding) the fractional part; in
particular, 3725.4 seconds formats as 01:02:05,400. -/
theorem timecode_truncated_format (t : ℚ) (ht : 0 ≤ t) :
    format_timecode t = specTimecode t ∧
    format_timecode (3725.4 : ℚ) = "01:02:05,400" := by
  refine ⟨format_timecode_eq_spec t ht, ?_⟩
  rw [format_timecode_eq_spec (3725.4 : ℚ) (by norm_num)]
  have hfl : ⌊(3725.4 : ℚ)⌋₊ = 3725 := by
    rw [Nat.floor_eq_iff (by norm_num)]
    norm_num
  have hms : ⌊((3725.4 : ℚ) - ((3725 : ℕ) : ℚ)) * 1000⌋₊ = 400 := by
    rw [Nat.floor_eq_iff (by norm_num)]
    norm_num
  rw [specTimecode, hfl, hms]
  norm_num
  decide

/-- C6 witness: the theorem applied at the spec's example input 3725.4. -/
theorem timecode_truncated_format_witness :
    format_timecode (3725.4 : ℚ) = specTimecode (3725.4 : ℚ) ∧
    format_timecode (3725.4 : ℚ) = "01:02:05,400" :=
  timecode_truncated_format (3725.4 : ℚ) (by norm_num)

/-- C7: for every non-empty candidate list (all candidates non-degenerate,
so that scoring succeeds) and every clipsCount ≥ 0, transcript-driven
selection returns at most min(clipsCount, number of non-degenerate
candidates) moments, taken from the descending-score stable sort with
sequential 1-based ids. -/
theorem transcript_selection_top_k (d : ℚ) (n m : ℤ) (segs : List Segment)
    (hne : segs ≠ []) (hw : ∀ s ∈ segs, s.«end» - s.start ≠ 0) (hn : 0 ≤ n) :
    ∃ cs ms, scored_segments segs = Except.ok cs ∧
      find_interesting_moments d n m segs = Except.ok ms ∧
      (ms.length : ℤ) ≤ min n ((segs.countP fun s => decide (s.«end» - s.start ≠ 0) : ℕ) : ℤ) ∧
      (cs.mergeSort scoreDescLE).Pairwise (fun a b => b.score ≤ a.score) ∧
      ms = ((pySlice n (cs.mergeSort scoreDescLE)).enum).map (momentOfCandidate d m) ∧
      ∀ (j : ℕ) (hj : j < ms.length), (ms.get ⟨j, hj⟩).id = j + 1 := by
  obtain ⟨cs, hcs, hlen⟩ := scored_segments_ok hw
  obtain ⟨s0, rest, rfl⟩ := List.exists_cons_of_ne_nil hne
  have hfind : find_interesting_moments d n m (s0 :: rest) =
      Except.ok (((pySlice n (cs.mergeSort scoreDescLE)).enum).map
        (momentOfCandidate d m)) := by
    simp [find_interesting_moments, hcs]
  refine ⟨cs, _, hcs, hfind, ?_, ?_, rfl, ?_⟩
  · have hcount : ((s0 :: rest).countP fun s => decide (s.«end» - s.start ≠ 0)) =
        (s0 :: rest).length := by
      rw [List.countP_eq_length]
      intro s hs
      simpa using hw s hs
    have hslice : (pySlice n (cs.mergeSort scoreDescLE)).length =
        min n.toNat cs.length := by
      simp [pySlice, if_pos hn]
    simp only [List.length_map, List.enum_eq_enumFrom, List.enumFrom_length, hslice,
      hcount, hlen]
    rw [Nat.cast_min, Int.toNat_of_nonneg hn]
  · have tr : ∀ a b c : ScoredCandidate,
        scoreDescLE a b → scoreDescLE b c → scoreDescLE a c := by
      intro a b c hab hbc
      simp only [scoreDescLE, decide_eq_true_eq] at hab hbc ⊢
      exact le_trans hbc hab
    have tot : ∀ a b : ScoredCandidate, scoreDescLE a b || scoreDescLE b a := by
      intro a b
      simpa [scoreDescLE] using le_total b.score a.score
    exact (List.sorted_mergeSort tr tot cs).imp
      (fun h => by simpa [scoreDescLE] using h)
  · intro j hj
    have hjl : j < ((pySlice n (cs.mergeSort scoreDescLE)).enumFrom 0).length := by
      simpa [List.enum_eq_enumFrom] using hj
    simp only [List.get_eq_getElem, List.getElem_map, List.enum_eq_enumFrom,
      List.getElem_enumFrom]
    simp [momentOfCandidate]

/-- C7 witness: the theorem applied to a one-candidate transcript with
clipsCount = 1. -/
theorem transcript_selection_top_k_witness :
    ∃ cs ms, scored_segments [⟨"hello world", 0, 2⟩] = Except.ok cs ∧
      find_interesting_moments 100 1 30 [⟨"hello world", 0, 2⟩] = Except.ok ms ∧
      (ms.length : ℤ) ≤
        min 1 ((([⟨"hello world", 0, 2⟩] : List Segment).countP
          fun s => decide (s.«end» - s.start ≠ 0) : ℕ) : ℤ) ∧
      (cs.mergeSort scoreDescLE).Pairwise (fun a b => b.score ≤ a.score) ∧
      ms = ((pySlice 1 (cs.mergeSort scoreDescLE)).enum).map (momentOfCandidate 100 30) ∧
      ∀ (j : ℕ) (hj : j < ms.length), (ms.get ⟨j, hj⟩).id = j + 1 :=
  transcript_selection_top_k 100 1 30 [⟨"hello world", 0, 2⟩] (by simp)
    (by intro s hs; rw [List.mem_singleton] at hs; subst hs; norm_num) (by norm_num)

end ClipPipeline
